import Mathlib

/-!
# Whiteboard collaboration server, shallow embedding

A shallow embedding of the core of the whiteboard real-time collaboration
server (the socket relay in SocketManager.js, the JWT secret manager in
JwtSecretManager.js together with SharedTokenGenerator.js and AppManager.js,
and the metrics endpoint of AppManager.js), together with theorems settling
the specification claims.

Modelling conventions:
* Raw array-buffer payloads are Bytes (a list of bytes).  JSON.parse composed
  with Utils.convertArrayBufferToString is an explicit parameter of each
  handler that uses it (the handlers never inspect payload bytes themselves);
  JSON.stringify composed with Utils.convertStringToArrayBuffer is modelled
  by carrying the structured value itself in the emitted event
  (serialisation is injective, so nothing is lost).
* The socket.io server state is explicit: the connection-id keyed session
  store and the credential-keyed token cache of SocketDataManager, plus the
  room-membership relation maintained by socket.io (socket.join).  A socket
  is always a member of its self-room (the room named by its own id), as in
  socket.io; in particular, during the disconnecting event the socket is
  still a member of all its rooms.
* Asynchronous handlers become pure functions returning Option
  HandlerResult: none models an exception escaping the handler (for
  example reading the user field of an absent session record); some carries
  the emitted events, the calls made to the external Room Store
  (roomDataManager.syncRoomData), and the updated server state.  The Room
  Store itself is an external parameter of type Store.
-/

/-- Raw array-buffer content. -/
abbrev Bytes := List Nat

/-- A user identity carried inside decoded JWT claims. -/
structure User where
  id : String
  name : String
deriving DecidableEq, Repr

/-- Decoded session claims bound to a connection (the decoded JWT payload
stored by SocketDataManager): user identity, target file/room id, permission
level (1 means read-only), and the originating raw credential. -/
structure SessionData where
  user : User
  fileId : String
  permissions : Nat
  token : String
deriving DecidableEq, Repr

/-- Records of shape (socketId, user) produced by getUserSockets and
getOtherUserSockets. -/
structure UserSocket where
  socketId : String
  user : User
deriving DecidableEq, Repr

/-- Explicit server state: the two maps of SocketDataManager plus the
socket.io room membership (pairs (socketId, roomId) in join order). -/
structure ServerState where
  socketData : List (String × SessionData)
  tokenCache : List (String × SessionData)
  joined : List (String × String)
deriving DecidableEq, Repr

/-- Events emitted towards clients (the payload of emit). -/
inductive ServerEvent where
  /-- Event joined-data, with the serialised room snapshot and the literal
  empty-array second argument. -/
  | joinedData (data : String) (extra : List String)
  /-- Event room-not-found. -/
  | roomNotFound
  /-- Event room-user-change, carrying a presence list. -/
  | roomUserChange (users : List UserSocket)
  /-- Event client-broadcast on the durable path: the payload of the sender
  relayed verbatim. -/
  | clientBroadcast (encryptedData : Bytes) (iv : Bytes)
  /-- Event client-broadcast on the volatile path: the re-serialised
  MOUSE_LOCATION event (carried structurally: its type tag, the user field
  spliced in by the server, and the remaining payload fields). -/
  | clientBroadcastVolatile (etype : String) (user : Option User)
      (rest : List (String × String))
deriving DecidableEq, Repr

/-- An emission together with its addressing mode. -/
inductive Emit where
  /-- Point-to-point socket.emit: delivered to one socket only. -/
  | toSocket (sid : String) (ev : ServerEvent)
  /-- Room broadcast socket.broadcast.to(roomId).emit: delivered to every
  socket in the room except the sender. -/
  | broadcastTo (senderSid roomId : String) (ev : ServerEvent)
  /-- Volatile room broadcast socket.volatile.broadcast.to(roomId).emit:
  as broadcastTo, best-effort. -/
  | volatileBroadcastTo (senderSid roomId : String) (ev : ServerEvent)
  /-- Whole-room emit io.in(roomId).emit: delivered to every socket in the
  room, sender included. -/
  | roomEmit (roomId : String) (ev : ServerEvent)
deriving DecidableEq, Repr

/-- One call to the external Room Store, namely
syncRoomData(roomId, elements, userIds, authorUserId, token); omitted
trailing JavaScript arguments are none. -/
structure StoreCall where
  roomId : String
  elements : Option String
  userIds : List String
  authorUserId : Option String
  token : Option String
deriving DecidableEq, Repr

/-- The room snapshot the Room Store may return. -/
structure Room where
  data : String
deriving DecidableEq, Repr

/-- The external Room Store: what syncRoomData answers for each call. -/
abbrev Store := StoreCall → Option Room

/-- Result of one successful handler run: events emitted, Room Store calls
issued, and the state afterwards. -/
structure HandlerResult where
  emits : List Emit
  storeCalls : List StoreCall
  state : ServerState
deriving DecidableEq, Repr

/-- The durable-broadcast payload after JSON decoding: the handler reads
only the field path payload.elements of the decoded value (kept serialised
as a String here). -/
structure DurablePayload where
  elements : String
deriving DecidableEq, Repr

/-- The volatile-broadcast payload after JSON decoding: the type tag, plus
the inner payload object split into its optional user field and the
remaining fields (opaque key/value pairs). -/
structure VolatilePayload where
  ptype : String
  user : Option User
  rest : List (String × String)
deriving DecidableEq, Repr

/-- Does the joined relation record that sid joined roomID? -/
def joinedHas (st : ServerState) (sid roomID : String) : Bool :=
  st.joined.any fun p => p.1 == sid && p.2 == roomID

/-- Membership test socket.rooms.has(roomID): a socket is in its self-room
and in every room it joined. -/
def socketRoomsHas (st : ServerState) (sid roomID : String) : Bool :=
  roomID == sid || joinedHas st sid roomID

/-- The room set socket.rooms as a list: the self-room first, then joined
rooms in join order (socket.io keeps rooms as an insertion-ordered set). -/
def socketRooms (st : ServerState) (sid : String) : List String :=
  sid :: (st.joined.filterMap fun p => if p.1 == sid then some p.2 else none)

/-- Effect of socket.join(roomID): record membership (idempotent). -/
def joinRoom (st : ServerState) (sid roomID : String) : ServerState :=
  if joinedHas st sid roomID then st
  else { st with joined := st.joined ++ [(sid, roomID)] }

/-- Enumeration io.in(roomID).fetchSockets(): the connected sockets (those
with session data, in connection order) that are in the room. -/
def fetchSockets (st : ServerState) (roomID : String) : List String :=
  (st.socketData.map Prod.fst).filter fun sid => socketRoomsHas st sid roomID

/-- Combinator for Promise.all over an asynchronous map that may reject:
none as soon as one element fails. -/
def allSome (f : α → Option β) : List α → Option (List β)
  | [] => some []
  | x :: xs => (f x).bind fun y => (allSome f xs).map fun ys => y :: ys

/-- Enumeration getUserSockets(roomID): the (socketId, user) records of all
sockets in the room (none models the exception thrown when a socket has no
session data). -/
def getUserSockets (st : ServerState) (roomID : String) : Option (List UserSocket) :=
  allSome (fun sid => (st.socketData.lookup sid).map fun data => ⟨sid, data.user⟩)
    (fetchSockets st roomID)

/-- Enumeration getOtherUserSockets(roomID, currentSocketId): as
getUserSockets but excluding the given socket. -/
def getOtherUserSockets (st : ServerState) (roomID currentSocketId : String) :
    Option (List UserSocket) :=
  allSome (fun sid => (st.socketData.lookup sid).map fun data => ⟨sid, data.user⟩)
    ((fetchSockets st roomID).filter fun sid => sid != currentSocketId)

/-- The userIds computation shared by join, durable broadcast and
disconnect: map each user-socket record back to the user id of its session
data (the code performs this second lookup explicitly). -/
def userIdsOf (st : ServerState) (roomID : String) : Option (List String) :=
  (getUserSockets st roomID).bind fun userSockets =>
    allSome (fun s => (st.socketData.lookup s.socketId).map fun data => data.user.id)
      userSockets

/-- Predicate isSocketReadOnly(socketId): permission level 1 when session
data exists, otherwise false. -/
def isSocketReadOnly (st : ServerState) (sid : String) : Bool :=
  match st.socketData.lookup sid with
  | some socketData => socketData.permissions == 1
  | none => false

/-- Result of verifyToken: the decoded claims (none on authentication
error), the state (token cache possibly extended), and whether the
cryptographic verifier (jwt.verify) was invoked. -/
structure VerifyResult where
  decoded : Option SessionData
  state : ServerState
  verifierCalled : Bool
deriving DecidableEq, Repr

/-- Operation verifyToken(token): consult the credential-keyed cache first;
on a miss run the cryptographic verifier jwtVerify (a parameter standing
for jwt.verify with the process secret) and cache a successful result. -/
def verifyToken (jwtVerify : String → Option SessionData) (st : ServerState)
    (token : String) : VerifyResult :=
  match st.tokenCache.lookup token with
  | some cachedToken => ⟨some cachedToken, st, false⟩
  | none =>
    match jwtVerify token with
    | some decoded =>
      ⟨some decoded, { st with tokenCache := (token, decoded) :: st.tokenCache }, true⟩
    | none => ⟨none, st, true⟩

/-- Handler joinRoomHandler(socket, roomID): join the room, enumerate the
user ids of the room, call the Room Store with
(roomID, null, userIds, null, token); on a snapshot, emit joined-data to
the joiner only and room-user-change (the members other than the joiner) to
the whole room via io.in; otherwise emit room-not-found to the joiner. -/
def joinRoomHandler (store : Store) (st : ServerState) (sid roomID : String) :
    Option HandlerResult :=
  let st1 := joinRoom st sid roomID
  (userIdsOf st1 roomID).bind fun userIds =>
  (st1.socketData.lookup sid).bind fun socketData =>
  let call : StoreCall := ⟨roomID, none, userIds, none, some socketData.token⟩
  match store call with
  | some room =>
    (getOtherUserSockets st1 roomID sid).map fun otherUserSockets =>
      ⟨[Emit.toSocket sid (ServerEvent.joinedData room.data []),
        Emit.roomEmit roomID (ServerEvent.roomUserChange otherUserSockets)],
       [call], st1⟩
  | none =>
    some ⟨[Emit.toSocket sid ServerEvent.roomNotFound], [call], st1⟩

/-- Handler serverBroadcastHandler(socket, roomID, encryptedData, iv):
no-op unless the rooms of the socket contain roomID and the socket is not
read-only; otherwise relay the payload verbatim to the other room members
and forward the decoded element delta with the user ids of the room to the
Room Store. -/
def serverBroadcastHandler (parsePayload : Bytes → DurablePayload)
    (st : ServerState) (sid roomID : String) (encryptedData iv : Bytes) :
    Option HandlerResult :=
  if !(socketRoomsHas st sid roomID) || isSocketReadOnly st sid then
    some ⟨[], [], st⟩
  else
    let relay := Emit.broadcastTo sid roomID
      (ServerEvent.clientBroadcast encryptedData iv)
    let decryptedData := parsePayload encryptedData
    (st.socketData.lookup sid).bind fun socketData =>
    (userIdsOf st roomID).map fun userIds =>
      ⟨[relay],
       [⟨roomID, some decryptedData.elements, userIds, some socketData.user.id, none⟩],
       st⟩

/-- Handler serverVolatileBroadcastHandler(socket, roomID, encryptedData):
decode the payload; only when its type is MOUSE_LOCATION, rebuild the event
with the stored user identity of the sender spliced over the user field of
the payload and relay it volatile to the room; never any Room Store call
and never any read-only check. -/
def serverVolatileBroadcastHandler (parsePayload : Bytes → VolatilePayload)
    (st : ServerState) (sid roomID : String) (encryptedData : Bytes) :
    Option HandlerResult :=
  let payload := parsePayload encryptedData
  if payload.ptype = "MOUSE_LOCATION" then
    (st.socketData.lookup sid).map fun socketData =>
      ⟨[Emit.volatileBroadcastTo sid roomID
          (ServerEvent.clientBroadcastVolatile "MOUSE_LOCATION"
            (some socketData.user) payload.rest)],
       [], st⟩
  else
    some ⟨[], [], st⟩

/-- Per-room body of disconnectingHandler: notify the other members when
any remain, and push the current user ids of the room (no element delta) to
the Room Store. -/
def disconnectRoomStep (st : ServerState) (sid roomID : String) :
    Option (List Emit × StoreCall) :=
  (getOtherUserSockets st roomID sid).bind fun otherUserSockets =>
  (userIdsOf st roomID).map fun userIds =>
    ((if otherUserSockets.length > 0 then
        [Emit.broadcastTo sid roomID (ServerEvent.roomUserChange otherUserSockets)]
      else []),
     ⟨roomID, none, userIds, none, none⟩)

/-- Fold of disconnectRoomStep over the rooms being left, in order. -/
def disconnectRooms (st : ServerState) (sid : String) :
    List String → Option (List Emit × List StoreCall)
  | [] => some ([], [])
  | r :: rs =>
    (disconnectRoomStep st sid r).bind fun step =>
    (disconnectRooms st sid rs).map fun rest =>
      (step.1 ++ rest.1, step.2 :: rest.2)

/-- Handler disconnectingHandler(socket): fired while the socket is still
in all its rooms; for every room except the self-room, run
disconnectRoomStep.  The state is unchanged (socket.io removes memberships
afterwards). -/
def disconnectingHandler (st : ServerState) (sid : String) : Option HandlerResult :=
  (st.socketData.lookup sid).bind fun _ =>
  (disconnectRooms st sid ((socketRooms st sid).filter fun r => r != sid)).map
    fun res => ⟨res.1, res.2, st⟩

/-- Which sockets a given emission reaches, per socket.io addressing. -/
def Emit.deliveredTo (st : ServerState) (target : String) : Emit → Bool
  | Emit.toSocket sid _ => target == sid
  | Emit.broadcastTo senderSid roomId _ =>
    (fetchSockets st roomId).contains target && target != senderSid
  | Emit.volatileBroadcastTo senderSid roomId _ =>
    (fetchSockets st roomId).contains target && target != senderSid
  | Emit.roomEmit roomId _ => (fetchSockets st roomId).contains target

/-- One nibble as a lowercase hex character (toString with base 16). -/
def hexDigit (n : Nat) : Char :=
  if n < 10 then Char.ofNat (48 + n) else Char.ofNat (87 + n)

/-- Hex rendering of a byte buffer, as Buffer.toString with hex encoding:
two lowercase hex characters per byte. -/
def bytesToHex (bs : List Nat) : String :=
  String.mk (bs.flatMap fun b => [hexDigit (b / 16 % 16), hexDigit (b % 16)])

/-- Function getOrCreateJwtSecretKey(): if the environment variable
JWT_SECRET_KEY is absent or empty, generate a fresh secret (randomBytes(32)
rendered in hex, the random bytes passed as a parameter), store it in the
environment and return it; otherwise return the existing value.  Returns
the secret and the updated environment variable. -/
def getOrCreateJwtSecretKey (freshBytes : List Nat) (env : Option String) :
    String × Option String :=
  match env with
  | none =>
    let newSecret := bytesToHex freshBytes
    (newSecret, some newSecret)
  | some k =>
    if k = "" then
      let newSecret := bytesToHex freshBytes
      (newSecret, some newSecret)
    else (k, some k)

/-- Extraction of the metrics token from a request: take the second
space-separated word of the authorization header if present and non-empty,
otherwise the token query parameter. -/
def extractMetricsToken (authHeader queryToken : Option String) : Option String :=
  let fromHeader := authHeader.bind fun h => (h.splitOn " ").get? 1
  match fromHeader with
  | some t => if t = "" then queryToken else some t
  | none => queryToken

/-- The two outcomes of metricsHandler that we model: the 403 rejection, or
serving the metrics page. -/
inductive MetricsResponse where
  | forbidden
  | metrics
deriving DecidableEq, Repr

/-- Handler AppManager.metricsHandler: reject with 403 when METRICS_TOKEN
is unset or empty, or when the supplied token differs from it. -/
def metricsHandler (metricsToken : Option String)
    (authHeader queryToken : Option String) : MetricsResponse :=
  let token := extractMetricsToken authHeader queryToken
  if metricsToken.getD "" = "" || token != metricsToken then
    MetricsResponse.forbidden
  else
    MetricsResponse.metrics

/-! ## Concrete scenario data used by counterexamples and witnesses -/

/-- First test user. -/
def alice : User := ⟨"alice", "Alice"⟩

/-- Second test user. -/
def bob : User := ⟨"bob", "Bob"⟩

/-- Read-write session of alice on room doc-42. -/
def aliceSession : SessionData := ⟨alice, "doc-42", 2, "tok1"⟩

/-- Read-write session of bob on room doc-42. -/
def bobSession : SessionData := ⟨bob, "doc-42", 2, "tok2"⟩

/-- Read-only session of alice on room doc-42. -/
def aliceReadOnlySession : SessionData := ⟨alice, "doc-42", 1, "tok1"⟩

/-- Second read-write session of alice (a second live connection of the
same user), with a different credential. -/
def aliceSecondSession : SessionData := ⟨alice, "doc-42", 2, "tok2"⟩

/-- State before the second join: connection s1 (alice) already in doc-42,
connection s2 (bob) connected but not yet joined. -/
def stJoin : ServerState :=
  ⟨[("s1", aliceSession), ("s2", bobSession)], [], [("s1", "doc-42")]⟩

/-- State with both connections in doc-42. -/
def stBoth : ServerState :=
  ⟨[("s1", aliceSession), ("s2", bobSession)], [],
   [("s1", "doc-42"), ("s2", "doc-42")]⟩

/-- State where the same user has two live connections: s1 and s2 both
belong to alice; s1 already in doc-42, s2 about to join. -/
def stDup : ServerState :=
  ⟨[("s1", aliceSession), ("s2", aliceSecondSession)], [], [("s1", "doc-42")]⟩

/-- State where both connections of alice are members of doc-42. -/
def stDupBoth : ServerState :=
  ⟨[("s1", aliceSession), ("s2", aliceSecondSession)], [],
   [("s1", "doc-42"), ("s2", "doc-42")]⟩

/-- State where s1 is read-only and both connections are in doc-42. -/
def stReadOnly : ServerState :=
  ⟨[("s1", aliceReadOnlySession), ("s2", bobSession)], [],
   [("s1", "doc-42"), ("s2", "doc-42")]⟩

/-- A Room Store that always returns a snapshot. -/
def snapshotStore : Store := fun _ => some ⟨"snapshot"⟩

/-- A decoder that reads every buffer as a MOUSE_LOCATION payload. -/
def mouseParse : Bytes → VolatilePayload := fun _ => ⟨"MOUSE_LOCATION", none, [("x", "1")]⟩

/-- A decoder that reads every buffer as a payload of some other type. -/
def pingParse : Bytes → VolatilePayload := fun _ => ⟨"PING", none, []⟩

/-- A decoder for durable payloads with a fixed element delta. -/
def elementsParse : Bytes → DurablePayload := fun _ => ⟨"els"⟩

/-- A cryptographic verifier accepting exactly the credential tok1. -/
def jwtVerifyTest : String → Option SessionData :=
  fun t => if t = "tok1" then some aliceSession else none

/-- State whose credential cache already holds tok1. -/
def stCached : ServerState := ⟨[], [("tok1", aliceSession)], []⟩

/-- State with an empty credential cache. -/
def stNoCache : ServerState := ⟨[], [], []⟩

/-! ## Helper lemmas -/

theorem allSome_mem_of_mem {α β : Type} {f : α → Option β} {xs : List α}
    {ys : List β} (h : allSome f xs = some ys) {x : α} (hx : x ∈ xs) :
    ∃ y, f x = some y ∧ y ∈ ys := by
  induction xs generalizing ys with
  | nil => cases hx
  | cons a l ih =>
    simp only [allSome] at h
    cases hfa : f a with
    | none => rw [hfa] at h; simp at h
    | some y0 =>
      rw [hfa] at h
      cases hrest : allSome f l with
      | none => rw [hrest] at h; simp at h
      | some ys0 =>
        rw [hrest] at h
        simp only [Option.some_bind, Option.map_some', Option.some.injEq] at h
        subst h
        rcases List.mem_cons.mp hx with hx | hx
        · exact ⟨y0, hx ▸ hfa, List.mem_cons_self _ _⟩
        · obtain ⟨y, hy1, hy2⟩ := ih hrest hx
          exact ⟨y, hy1, List.mem_cons_of_mem _ hy2⟩

theorem mem_of_allSome {α β : Type} {f : α → Option β} {xs : List α}
    {ys : List β} (h : allSome f xs = some ys) {y : β} (hy : y ∈ ys) :
    ∃ x, x ∈ xs ∧ f x = some y := by
  induction xs generalizing ys with
  | nil => simp only [allSome, Option.some.injEq] at h; subst h; cases hy
  | cons a l ih =>
    simp only [allSome] at h
    cases hfa : f a with
    | none => rw [hfa] at h; simp at h
    | some y0 =>
      rw [hfa] at h
      cases hrest : allSome f l with
      | none => rw [hrest] at h; simp at h
      | some ys0 =>
        rw [hrest] at h
        simp only [Option.some_bind, Option.map_some', Option.some.injEq] at h
        subst h
        rcases List.mem_cons.mp hy with hy | hy
        · exact ⟨a, List.mem_cons_self _ _, hy ▸ hfa⟩
        · obtain ⟨x, hx1, hx2⟩ := ih hrest hy
          exact ⟨x, List.mem_cons_of_mem _ hx1, hx2⟩

theorem allSome_congr_map {α β : Type} {f : α → Option β} {xs : List α}
    {g : α → β} (h : ∀ x ∈ xs, f x = some (g x)) :
    allSome f xs = some (xs.map g) := by
  induction xs with
  | nil => rfl
  | cons a l ih =>
    simp only [allSome, h a (List.mem_cons_self _ _),
      ih fun x hx => h x (List.mem_cons_of_mem _ hx), Option.some_bind,
      Option.map_some', List.map_cons]

theorem allSome_length {α β : Type} {f : α → Option β} {xs : List α}
    {ys : List β} (h : allSome f xs = some ys) : ys.length = xs.length := by
  induction xs generalizing ys with
  | nil => simp only [allSome, Option.some.injEq] at h; subst h; rfl
  | cons a l ih =>
    simp only [allSome] at h
    cases hfa : f a with
    | none => rw [hfa] at h; simp at h
    | some y0 =>
      rw [hfa] at h
      cases hrest : allSome f l with
      | none => rw [hrest] at h; simp at h
      | some ys0 =>
        rw [hrest] at h
        simp only [Option.some_bind, Option.map_some', Option.some.injEq] at h
        subst h
        simp [ih hrest]

theorem lookup_mem_keys {β : Type} {l : List (String × β)} {k : String} {v : β}
    (h : l.lookup k = some v) : k ∈ l.map Prod.fst := by
  induction l with
  | nil => simp [List.lookup] at h
  | cons p l ih =>
    obtain ⟨a, b⟩ := p
    simp only [List.lookup] at h
    cases hk : k == a with
    | true =>
      simp only [List.map_cons, List.mem_cons]
      exact Or.inl (eq_of_beq hk)
    | false =>
      simp only [hk] at h
      exact List.mem_cons_of_mem _ (ih h)

theorem userIdsOf_mem {st : ServerState} {roomID : String} {ids : List String}
    {sid : String} {sd : SessionData}
    (h : userIdsOf st roomID = some ids)
    (hl : st.socketData.lookup sid = some sd)
    (hf : sid ∈ fetchSockets st roomID) :
    sd.user.id ∈ ids := by
  simp only [userIdsOf] at h
  cases hus : getUserSockets st roomID with
  | none => rw [hus] at h; simp at h
  | some us =>
    rw [hus] at h
    simp only [Option.some_bind] at h
    simp only [getUserSockets] at hus
    obtain ⟨y, hy1, hy2⟩ := allSome_mem_of_mem hus hf
    rw [hl] at hy1
    simp only [Option.map_some', Option.some.injEq] at hy1
    subst hy1
    obtain ⟨z, hz1, hz2⟩ := allSome_mem_of_mem h hy2
    simp only [hl, Option.map_some', Option.some.injEq] at hz1
    subst hz1
    exact hz2

/-! ## Claim theorems -/

/-- C5: verifyToken returns the cached SessionData on a credential cache
hit without invoking cryptographic verification (so the expiry of the
credential is not re-checked on a hit), and the credential cache changes
only after a successful verification, which populates it with the freshly
decoded claims. -/
theorem verifyToken_cache_behavior (jwtVerify : String → Option SessionData)
    (st : ServerState) (token : String) :
    (∀ d, st.tokenCache.lookup token = some d →
      verifyToken jwtVerify st token = ⟨some d, st, false⟩) ∧
    ((verifyToken jwtVerify st token).state.tokenCache ≠ st.tokenCache →
      ∃ d, jwtVerify token = some d ∧
        (verifyToken jwtVerify st token).decoded = some d ∧
        (verifyToken jwtVerify st token).verifierCalled = true ∧
        (verifyToken jwtVerify st token).state.tokenCache =
          (token, d) :: st.tokenCache) := by
  constructor
  · intro d hd
    simp [verifyToken, hd]
  · intro hne
    cases hl : st.tokenCache.lookup token with
    | some d => simp [verifyToken, hl] at hne
    | none =>
      cases hv : jwtVerify token with
      | none => simp [verifyToken, hl, hv] at hne
      | some d =>
        refine ⟨d, rfl, ?_, ?_, ?_⟩ <;> simp [verifyToken, hl, hv]

/-- Witness for C5: a concrete cache hit returns the cached claims without
calling the verifier, and a concrete miss followed by a successful
verification extends the cache. -/
theorem verifyToken_cache_behavior_witness :
    verifyToken jwtVerifyTest stCached "tok1" =
      ⟨some aliceSession, stCached, false⟩ ∧
    ∃ d, jwtVerifyTest "tok1" = some d ∧
      (verifyToken jwtVerifyTest stNoCache "tok1").decoded = some d ∧
      (verifyToken jwtVerifyTest stNoCache "tok1").verifierCalled = true ∧
      (verifyToken jwtVerifyTest stNoCache "tok1").state.tokenCache =
        ("tok1", d) :: stNoCache.tokenCache :=
  ⟨(verifyToken_cache_behavior jwtVerifyTest stCached "tok1").1 aliceSession (by decide),
   (verifyToken_cache_behavior jwtVerifyTest stNoCache "tok1").2 (by decide)⟩

/-- C6: a durable broadcast from a connection that is read-only or whose
room set does not contain the target room is a complete no-op: no event is
emitted to anyone (in particular nothing to the sender), no Room Store call
is made, and the state is unchanged. -/
theorem serverBroadcast_noop (parsePayload : Bytes → DurablePayload)
    (st : ServerState) (sid roomID : String) (encryptedData iv : Bytes)
    (h : socketRoomsHas st sid roomID = false ∨ isSocketReadOnly st sid = true) :
    serverBroadcastHandler parsePayload st sid roomID encryptedData iv =
      some ⟨[], [], st⟩ := by
  rcases h with h | h <;> simp [serverBroadcastHandler, h]

/-- Witness for C6: a concrete broadcast into a room never joined is a
no-op. -/
theorem serverBroadcast_noop_witness :
    socketRoomsHas stJoin "s2" "doc-42" = false ∧
    serverBroadcastHandler elementsParse stJoin "s2" "doc-42" [7] [8] =
      some ⟨[], [], stJoin⟩ :=
  ⟨by decide,
   serverBroadcast_noop elementsParse stJoin "s2" "doc-42" [7] [8]
     (Or.inl (by decide))⟩

/-- C7: whatever the durable-broadcast handler emits is exactly the
client-broadcast relay of the submitted payload, bit-identical (the same
encryptedData and iv values, no transformation); when the defensive guard
passes, exactly one such relay is emitted. -/
theorem serverBroadcast_verbatim (parsePayload : Bytes → DurablePayload)
    (st : ServerState) (sid roomID : String) (encryptedData iv : Bytes)
    (res : HandlerResult)
    (hres : serverBroadcastHandler parsePayload st sid roomID encryptedData iv =
      some res) :
    (∀ e ∈ res.emits,
      e = Emit.broadcastTo sid roomID
        (ServerEvent.clientBroadcast encryptedData iv)) ∧
    (socketRoomsHas st sid roomID = true → isSocketReadOnly st sid = false →
      res.emits = [Emit.broadcastTo sid roomID
        (ServerEvent.clientBroadcast encryptedData iv)]) := by
  simp only [serverBroadcastHandler] at hres
  split at hres
  next hg =>
    simp only [Option.some.injEq] at hres
    subst hres
    constructor
    · intro e he
      simp at he
    · intro hmem hro
      rw [hmem, hro] at hg
      simp at hg
  next hg =>
    cases hsd : st.socketData.lookup sid with
    | none => rw [hsd] at hres; simp at hres
    | some sd =>
      rw [hsd] at hres
      cases hids : userIdsOf st roomID with
      | none => rw [hids] at hres; simp at hres
      | some ids =>
        rw [hids] at hres
        simp only [Option.some_bind, Option.map_some', Option.some.injEq] at hres
        subst hres
        constructor
        · intro e he
          simp only [List.mem_singleton] at he
          exact he
        · intro _ _
          rfl

/-- Witness for C7: a concrete durable broadcast relays the submitted
payload verbatim to the room. -/
theorem serverBroadcast_verbatim_witness :
    serverBroadcastHandler elementsParse stBoth "s1" "doc-42" [7] [8] =
      some ⟨[Emit.broadcastTo "s1" "doc-42" (ServerEvent.clientBroadcast [7] [8])],
            [⟨"doc-42", some "els", ["alice", "bob"], some "alice", none⟩], stBoth⟩ ∧
    (⟨[Emit.broadcastTo "s1" "doc-42" (ServerEvent.clientBroadcast [7] [8])],
      [⟨"doc-42", some "els", ["alice", "bob"], some "alice", none⟩],
      stBoth⟩ : HandlerResult).emits =
      [Emit.broadcastTo "s1" "doc-42" (ServerEvent.clientBroadcast [7] [8])] :=
  ⟨by decide,
   (serverBroadcast_verbatim elementsParse stBoth "s1" "doc-42" [7] [8]
     ⟨[Emit.broadcastTo "s1" "doc-42" (ServerEvent.clientBroadcast [7] [8])],
      [⟨"doc-42", some "els", ["alice", "bob"], some "alice", none⟩], stBoth⟩
     (by decide)).2 (by decide) (by decide)⟩

/-- C8: a volatile broadcast is relayed to the room precisely when the
decoded payload has type MOUSE_LOCATION (given the sender has session
data); any other type is silently dropped with no relay; the relayed event
carries the stored user identity of the sender in place of the user field
of the payload; and no Room Store call is ever made on this path. -/
theorem volatile_relay_iff (parsePayload : Bytes → VolatilePayload)
    (st : ServerState) (sid roomID : String) (encryptedData : Bytes) :
    ((parsePayload encryptedData).ptype ≠ "MOUSE_LOCATION" →
      serverVolatileBroadcastHandler parsePayload st sid roomID encryptedData =
        some ⟨[], [], st⟩) ∧
    (∀ sd, (parsePayload encryptedData).ptype = "MOUSE_LOCATION" →
      st.socketData.lookup sid = some sd →
      serverVolatileBroadcastHandler parsePayload st sid roomID encryptedData =
        some ⟨[Emit.volatileBroadcastTo sid roomID
                (ServerEvent.clientBroadcastVolatile "MOUSE_LOCATION"
                  (some sd.user) (parsePayload encryptedData).rest)],
              [], st⟩) ∧
    (∀ res,
      serverVolatileBroadcastHandler parsePayload st sid roomID encryptedData =
        some res → res.storeCalls = []) := by
  refine ⟨?_, ?_, ?_⟩
  · intro h
    simp [serverVolatileBroadcastHandler, h]
  · intro sd h hsd
    simp [serverVolatileBroadcastHandler, h, hsd]
  · intro res hres
    simp only [serverVolatileBroadcastHandler] at hres
    split at hres
    · cases hsd : st.socketData.lookup sid with
      | none => rw [hsd] at hres; simp at hres
      | some sd =>
        rw [hsd] at hres
        simp only [Option.map_some', Option.some.injEq] at hres
        subst hres
        rfl
    · simp only [Option.some.injEq] at hres
      subst hres
      rfl

/-- Witness for C8: a concrete MOUSE_LOCATION payload is relayed with the
user identity of the sender spliced in, and a concrete payload of another
type is dropped. -/
theorem volatile_relay_iff_witness :
    serverVolatileBroadcastHandler pingParse stBoth "s1" "doc-42" [0] =
      some ⟨[], [], stBoth⟩ ∧
    serverVolatileBroadcastHandler mouseParse stBoth "s1" "doc-42" [0] =
      some ⟨[Emit.volatileBroadcastTo "s1" "doc-42"
              (ServerEvent.clientBroadcastVolatile "MOUSE_LOCATION"
                (some alice) (mouseParse [0]).rest)], [], stBoth⟩ :=
  ⟨(volatile_relay_iff pingParse stBoth "s1" "doc-42" [0]).1 (by decide),
   (volatile_relay_iff mouseParse stBoth "s1" "doc-42" [0]).2.1
     aliceSession (by decide) (by decide)⟩

theorem bytesToHex_ne_empty {bs : List Nat} (h : bs ≠ []) : bytesToHex bs ≠ "" := by
  cases bs with
  | nil => exact absurd rfl h
  | cons b l =>
    intro hc
    have h2 := congrArg String.data hc
    simp [bytesToHex] at h2

/-- C9: getOrCreateJwtSecretKey is idempotent: after the first call the
environment variable holds exactly the returned secret and is non-empty,
and every subsequent call (whatever fresh randomness it would draw) returns
the same value and leaves the environment unchanged; hence
SharedTokenGenerator and AppManager, which both call it at construction,
observe the same shared secret within one process.  The hypothesis records
that the fresh randomness is randomBytes(32). -/
theorem jwtSecret_idempotent (freshBytes : List Nat) (env : Option String)
    (hlen : freshBytes.length = 32) :
    (getOrCreateJwtSecretKey freshBytes env).2 =
      some (getOrCreateJwtSecretKey freshBytes env).1 ∧
    (getOrCreateJwtSecretKey freshBytes env).1 ≠ "" ∧
    (∀ freshBytes2,
      getOrCreateJwtSecretKey freshBytes2 (getOrCreateJwtSecretKey freshBytes env).2 =
        ((getOrCreateJwtSecretKey freshBytes env).1,
         (getOrCreateJwtSecretKey freshBytes env).2)) := by
  have hne : freshBytes ≠ [] := by
    intro hc; rw [hc] at hlen; simp at hlen
  have hhex := bytesToHex_ne_empty hne
  cases env with
  | none =>
    refine ⟨rfl, hhex, ?_⟩
    intro freshBytes2
    simp [getOrCreateJwtSecretKey, hhex]
  | some k =>
    by_cases hk : k = ""
    · subst hk
      refine ⟨?_, ?_, ?_⟩ <;>
        simp [getOrCreateJwtSecretKey, hhex]
    · refine ⟨?_, ?_, ?_⟩ <;>
        simp [getOrCreateJwtSecretKey, hk]

/-- Witness for C9: a concrete first call with no configured secret sets
the environment to the generated 64-character secret, which is non-empty
and returned unchanged by a subsequent call with different randomness. -/
theorem jwtSecret_idempotent_witness :
    (getOrCreateJwtSecretKey (List.replicate 32 0) none).2 =
      some (getOrCreateJwtSecretKey (List.replicate 32 0) none).1 ∧
    (getOrCreateJwtSecretKey (List.replicate 32 0) none).1 ≠ "" ∧
    (∀ freshBytes2,
      getOrCreateJwtSecretKey freshBytes2
          (getOrCreateJwtSecretKey (List.replicate 32 0) none).2 =
        ((getOrCreateJwtSecretKey (List.replicate 32 0) none).1,
         (getOrCreateJwtSecretKey (List.replicate 32 0) none).2)) :=
  jwtSecret_idempotent (List.replicate 32 0) none (by decide)

/-- C10: the metrics endpoint answers 403 exactly when the configured
METRICS_TOKEN is unset or empty, or the token supplied by the request
(bearer header, else query parameter) differs from it; in particular an
unset METRICS_TOKEN rejects every request. -/
theorem metrics_forbidden_iff (metricsToken authHeader queryToken : Option String) :
    (metricsHandler metricsToken authHeader queryToken = MetricsResponse.forbidden ↔
      (metricsToken = none ∨ metricsToken = some "" ∨
        extractMetricsToken authHeader queryToken ≠ metricsToken)) ∧
    (metricsToken = none →
      metricsHandler metricsToken authHeader queryToken = MetricsResponse.forbidden) := by
  constructor
  · cases metricsToken with
    | none => simp [metricsHandler]
    | some k =>
      by_cases hk : k = ""
      · subst hk
        simp [metricsHandler]
      · by_cases ht : extractMetricsToken authHeader queryToken = some k
        · simp [metricsHandler, hk, ht]
        · simp [metricsHandler, hk, ht]
  · intro h
    subst h
    simp [metricsHandler]

/-- Witness for C10: with no METRICS_TOKEN configured, a concrete request
carrying a bearer token is still rejected with 403. -/
theorem metrics_forbidden_iff_witness :
    metricsHandler none (some "Bearer sometoken") none = MetricsResponse.forbidden :=
  (metrics_forbidden_iff none (some "Bearer sometoken") none).2 rfl

/-- Counterexample to C1 as stated: in a concrete state where connection s1
has permission level 1 (read-only) and s2 shares the room, a volatile
broadcast of type MOUSE_LOCATION from s1 is relayed and delivered to s2 —
the volatile path has no read-only guard. -/
theorem readOnly_volatile_relayed_cex :
    isSocketReadOnly stReadOnly "s1" = true ∧
    serverVolatileBroadcastHandler mouseParse stReadOnly "s1" "doc-42" [0] =
      some ⟨[Emit.volatileBroadcastTo "s1" "doc-42"
              (ServerEvent.clientBroadcastVolatile "MOUSE_LOCATION"
                (some alice) [("x", "1")])], [], stReadOnly⟩ ∧
    (Emit.volatileBroadcastTo "s1" "doc-42"
      (ServerEvent.clientBroadcastVolatile "MOUSE_LOCATION"
        (some alice) [("x", "1")])).deliveredTo stReadOnly "s2" = true := by
  refine ⟨by decide, by decide, by decide⟩

/-- C1 (amended): a read-only connection can never cause a durable
broadcast to be relayed — the durable handler is a complete no-op for it in
every state, however many times it is attempted — but volatile broadcasts
are not guarded by permission: a MOUSE_LOCATION volatile broadcast from a
read-only connection is relayed to the room. -/
theorem readOnly_broadcast_behavior :
    (∀ (parsePayload : Bytes → DurablePayload) (st : ServerState)
        (sid roomID : String) (encryptedData iv : Bytes),
      isSocketReadOnly st sid = true →
      serverBroadcastHandler parsePayload st sid roomID encryptedData iv =
        some ⟨[], [], st⟩) ∧
    (∀ (parsePayload : Bytes → VolatilePayload) (st : ServerState)
        (sid roomID : String) (encryptedData : Bytes) (sd : SessionData),
      isSocketReadOnly st sid = true →
      (parsePayload encryptedData).ptype = "MOUSE_LOCATION" →
      st.socketData.lookup sid = some sd →
      serverVolatileBroadcastHandler parsePayload st sid roomID encryptedData =
        some ⟨[Emit.volatileBroadcastTo sid roomID
                (ServerEvent.clientBroadcastVolatile "MOUSE_LOCATION"
                  (some sd.user) (parsePayload encryptedData).rest)],
              [], st⟩) := by
  constructor
  · intro parsePayload st sid roomID encryptedData iv h
    simp [serverBroadcastHandler, h]
  · intro parsePayload st sid roomID encryptedData sd hro hm hsd
    simp [serverVolatileBroadcastHandler, hm, hsd]

/-- Witness for C1 (amended): at a concrete read-only connection the
durable broadcast is a no-op while the MOUSE_LOCATION volatile broadcast is
relayed. -/
theorem readOnly_broadcast_behavior_witness :
    serverBroadcastHandler elementsParse stReadOnly "s1" "doc-42" [7] [8] =
      some ⟨[], [], stReadOnly⟩ ∧
    serverVolatileBroadcastHandler mouseParse stReadOnly "s1" "doc-42" [0] =
      some ⟨[Emit.volatileBroadcastTo "s1" "doc-42"
              (ServerEvent.clientBroadcastVolatile "MOUSE_LOCATION"
                (some alice) (mouseParse [0]).rest)], [], stReadOnly⟩ :=
  ⟨readOnly_broadcast_behavior.1 elementsParse stReadOnly "s1" "doc-42" [7] [8]
     (by decide),
   readOnly_broadcast_behavior.2 mouseParse stReadOnly "s1" "doc-42" [0]
     aliceReadOnlySession (by decide) (by decide) (by decide)⟩

/-- Counterexample to C2 as stated: when s2 (bob) joins doc-42 already
containing s1 (alice), the presence event emitted on the join carries
exactly the identity of s1 and not the identity of s2, and it is delivered
to the whole room — the joiner s2 included — so the first member does not
receive a presence-change containing exactly the identity of the second
connection. -/
theorem join_presence_cex :
    joinRoomHandler snapshotStore stJoin "s2" "doc-42" =
      some ⟨[Emit.toSocket "s2" (ServerEvent.joinedData "snapshot" []),
             Emit.roomEmit "doc-42" (ServerEvent.roomUserChange [⟨"s1", alice⟩])],
            [⟨"doc-42", none, ["alice", "bob"], none, some "tok2"⟩], stBoth⟩ ∧
    (Emit.roomEmit "doc-42"
      (ServerEvent.roomUserChange [⟨"s1", alice⟩])).deliveredTo stBoth "s1" = true ∧
    (Emit.roomEmit "doc-42"
      (ServerEvent.roomUserChange [⟨"s1", alice⟩])).deliveredTo stBoth "s2" = true ∧
    (⟨"s2", bob⟩ : UserSocket) ∉ [(⟨"s1", alice⟩ : UserSocket)] := by
  refine ⟨by decide, by decide, by decide, by decide⟩

/-- C2 (amended): when the Room Store returns a snapshot on a join, the
joined-data event is delivered only to the joining connection, while the
presence list — the members of the room other than the joiner — is emitted
to the entire room (the joiner included); in the two-connection scenario
the first member therefore receives a presence list containing exactly the
identity of the first member itself. -/
theorem join_snapshot_presence (store : Store) (st : ServerState)
    (sid roomID : String) (userIds : List String) (sd : SessionData)
    (room : Room) (others : List UserSocket)
    (hids : userIdsOf (joinRoom st sid roomID) roomID = some userIds)
    (hsd : (joinRoom st sid roomID).socketData.lookup sid = some sd)
    (hstore : store ⟨roomID, none, userIds, none, some sd.token⟩ = some room)
    (hothers : getOtherUserSockets (joinRoom st sid roomID) roomID sid = some others) :
    joinRoomHandler store st sid roomID =
      some ⟨[Emit.toSocket sid (ServerEvent.joinedData room.data []),
             Emit.roomEmit roomID (ServerEvent.roomUserChange others)],
            [⟨roomID, none, userIds, none, some sd.token⟩],
            joinRoom st sid roomID⟩ ∧
    (∀ t, (Emit.toSocket sid (ServerEvent.joinedData room.data [])).deliveredTo
        (joinRoom st sid roomID) t = (t == sid)) ∧
    (∀ t, (Emit.roomEmit roomID (ServerEvent.roomUserChange others)).deliveredTo
        (joinRoom st sid roomID) t =
        (fetchSockets (joinRoom st sid roomID) roomID).contains t) ∧
    (∀ s ∈ others, s.socketId ≠ sid) := by
  refine ⟨?_, ?_, ?_, ?_⟩
  · simp [joinRoomHandler, hids, hsd, hstore, hothers]
  · intro t
    rfl
  · intro t
    rfl
  · intro s hs
    simp only [getOtherUserSockets] at hothers
    obtain ⟨x, hx1, hx2⟩ := mem_of_allSome hothers hs
    rw [List.mem_filter] at hx1
    cases hlk : (joinRoom st sid roomID).socketData.lookup x with
    | none => rw [hlk] at hx2; simp at hx2
    | some d =>
      rw [hlk] at hx2
      simp only [Option.map_some', Option.some.injEq] at hx2
      subst hx2
      simpa using hx1.2

/-- Witness for C2 (amended): the concrete two-connection scenario, with
the snapshot delivered to the joiner point-to-point and the presence event
emitted room-wide. -/
theorem join_snapshot_presence_witness :
    joinRoomHandler snapshotStore stJoin "s2" "doc-42" =
      some ⟨[Emit.toSocket "s2" (ServerEvent.joinedData "snapshot" []),
             Emit.roomEmit "doc-42" (ServerEvent.roomUserChange [⟨"s1", alice⟩])],
            [⟨"doc-42", none, ["alice", "bob"], none, some "tok2"⟩],
            joinRoom stJoin "s2" "doc-42"⟩ ∧
    (Emit.toSocket "s2" (ServerEvent.joinedData "snapshot" [])).deliveredTo
      (joinRoom stJoin "s2" "doc-42") "s1" = ("s1" == "s2") :=
  ⟨(join_snapshot_presence snapshotStore stJoin "s2" "doc-42" ["alice", "bob"]
      bobSession ⟨"snapshot"⟩ [⟨"s1", alice⟩]
      (by decide) (by decide) (by decide) (by decide)).1,
   (join_snapshot_presence snapshotStore stJoin "s2" "doc-42" ["alice", "bob"]
      bobSession ⟨"snapshot"⟩ [⟨"s1", alice⟩]
      (by decide) (by decide) (by decide) (by decide)).2.1 "s1"⟩

theorem disconnectRooms_spec (st : ServerState) (sid : String)
    (rooms : List String) (p : List Emit × List StoreCall)
    (h : disconnectRooms st sid rooms = some p) :
    (∀ call ∈ p.2, call.elements = none ∧ call.authorUserId = none ∧
      call.token = none ∧ userIdsOf st call.roomId = some call.userIds ∧
      call.roomId ∈ rooms) ∧
    (∀ e ∈ p.1, ∃ r others, getOtherUserSockets st r sid = some others ∧
      others ≠ [] ∧
      e = Emit.broadcastTo sid r (ServerEvent.roomUserChange others)) := by
  induction rooms generalizing p with
  | nil =>
    simp only [disconnectRooms, Option.some.injEq] at h
    subst h
    exact ⟨fun call hc => absurd hc (List.not_mem_nil call),
           fun e he => absurd he (List.not_mem_nil e)⟩
  | cons r rs ih =>
    simp only [disconnectRooms] at h
    cases hstep : disconnectRoomStep st sid r with
    | none => rw [hstep] at h; simp at h
    | some step =>
      rw [hstep] at h
      cases hrest : disconnectRooms st sid rs with
      | none => rw [hrest] at h; simp at h
      | some rest =>
        rw [hrest] at h
        simp only [Option.some_bind, Option.map_some', Option.some.injEq] at h
        subst h
        obtain ⟨ihCalls, ihEmits⟩ := ih rest hrest
        simp only [disconnectRoomStep] at hstep
        cases hoth : getOtherUserSockets st r sid with
        | none => rw [hoth] at hstep; simp at hstep
        | some others =>
          rw [hoth] at hstep
          cases hids : userIdsOf st r with
          | none => rw [hids] at hstep; simp at hstep
          | some ids =>
            rw [hids] at hstep
            simp only [Option.some_bind, Option.map_some',
              Option.some.injEq] at hstep
            subst hstep
            constructor
            · intro call hc
              rcases List.mem_cons.mp hc with hc | hc
              · subst hc
                exact ⟨rfl, rfl, rfl, hids, List.mem_cons_self _ _⟩
              · obtain ⟨h1, h2, h3, h4, h5⟩ := ihCalls call hc
                exact ⟨h1, h2, h3, h4, List.mem_cons_of_mem _ h5⟩
            · intro e he
              rcases List.mem_append.mp he with he | he
              · by_cases hlen : others.length > 0
                · rw [if_pos hlen] at he
                  simp only [List.mem_singleton] at he
                  subst he
                  exact ⟨r, others, hoth, List.ne_nil_of_length_pos hlen, rfl⟩
                · rw [if_neg hlen] at he
                  cases he
              · exact ihEmits e he

theorem joinedHas_of_mem_socketRooms {st : ServerState} {sid r : String}
    (h : r ∈ socketRooms st sid) (hne : r ≠ sid) : joinedHas st sid r = true := by
  simp only [socketRooms, List.mem_cons] at h
  rcases h with h | h
  · exact absurd h hne
  · rw [List.mem_filterMap] at h
    obtain ⟨p, hp, hf⟩ := h
    cases hps : p.1 == sid with
    | false => simp only [hps] at hf; simp at hf
    | true =>
      simp only [hps] at hf
      simp only [if_true, Option.some.injEq] at hf
      rw [joinedHas, List.any_eq_true]
      refine ⟨p, hp, ?_⟩
      rw [hps, hf]
      simp

theorem mem_fetchSockets_self {st : ServerState} {sid r : String}
    {sd : SessionData} (hsd : st.socketData.lookup sid = some sd)
    (hhas : socketRoomsHas st sid r = true) : sid ∈ fetchSockets st r := by
  rw [fetchSockets, List.mem_filter]
  exact ⟨lookup_mem_keys hsd, hhas⟩

/-- Counterexample to C3 as stated: in a concrete room holding s1 (alice)
and s2 (bob), when s2 fires disconnecting the membership list pushed to the
Room Store still contains the user id of the disconnecting connection s2 —
at that moment the socket has not yet left its rooms, and the handler
enumerates all member sockets, not the others only. -/
theorem disconnect_membership_cex :
    stBoth.socketData.lookup "s2" = some bobSession ∧
    disconnectingHandler stBoth "s2" =
      some ⟨[Emit.broadcastTo "s2" "doc-42"
              (ServerEvent.roomUserChange [⟨"s1", alice⟩])],
            [⟨"doc-42", none, ["alice", "bob"], none, none⟩], stBoth⟩ ∧
    bobSession.user.id ∈
      (⟨"doc-42", none, ["alice", "bob"], none, none⟩ : StoreCall).userIds := by
  refine ⟨by decide, by decide, by decide⟩

/-- C3 (amended): on disconnecting, for every room except the self-room the
remaining members are notified with a presence event only if at least one
other member remains, and the membership list pushed to the Room Store
carries no content delta (elements null) — but it is the full current
membership of the room, which still includes the disconnecting connection
(the socket has not yet left its rooms at that point). -/
theorem disconnecting_behavior (st : ServerState) (sid : String)
    (res : HandlerResult) (hres : disconnectingHandler st sid = some res) :
    res.state = st ∧
    (∀ call ∈ res.storeCalls,
      call.elements = none ∧ call.authorUserId = none ∧ call.token = none ∧
      call.roomId ≠ sid ∧ userIdsOf st call.roomId = some call.userIds) ∧
    (∀ e ∈ res.emits, ∃ r others,
      getOtherUserSockets st r sid = some others ∧ others ≠ [] ∧
      e = Emit.broadcastTo sid r (ServerEvent.roomUserChange others)) ∧
    (∀ sd, st.socketData.lookup sid = some sd →
      ∀ call ∈ res.storeCalls, sd.user.id ∈ call.userIds) := by
  simp only [disconnectingHandler] at hres
  cases hsd0 : st.socketData.lookup sid with
  | none => rw [hsd0] at hres; simp at hres
  | some sd0 =>
    rw [hsd0] at hres
    cases hrooms : disconnectRooms st sid
        ((socketRooms st sid).filter fun r => r != sid) with
    | none => rw [hrooms] at hres; simp at hres
    | some p =>
      rw [hrooms] at hres
      simp only [Option.some_bind, Option.map_some', Option.some.injEq] at hres
      subst hres
      obtain ⟨hCalls, hEmits⟩ := disconnectRooms_spec st sid _ p hrooms
      refine ⟨rfl, ?_, hEmits, ?_⟩
      · intro call hc
        obtain ⟨h1, h2, h3, h4, h5⟩ := hCalls call hc
        rw [List.mem_filter] at h5
        refine ⟨h1, h2, h3, ?_, h4⟩
        simpa using h5.2
      · intro sd hsd call hc
        injection hsd with hEq
        subst hEq
        obtain ⟨h1, h2, h3, h4, h5⟩ := hCalls call hc
        rw [List.mem_filter] at h5
        have hne : call.roomId ≠ sid := by simpa using h5.2
        have hjh : joinedHas st sid call.roomId = true :=
          joinedHas_of_mem_socketRooms h5.1 hne
        have hhas : socketRoomsHas st sid call.roomId = true := by
          rw [socketRoomsHas, hjh]
          simp
        exact userIdsOf_mem h4 hsd0 (mem_fetchSockets_self hsd0 hhas)

/-- Witness for C3 (amended): the concrete disconnect of s2 from doc-42,
where the store call carries no content delta and its membership list
contains the user id of the disconnecting connection. -/
theorem disconnecting_behavior_witness :
    (⟨[Emit.broadcastTo "s2" "doc-42"
        (ServerEvent.roomUserChange [⟨"s1", alice⟩])],
      [⟨"doc-42", none, ["alice", "bob"], none, none⟩],
      stBoth⟩ : HandlerResult).state = stBoth ∧
    bobSession.user.id ∈
      (⟨"doc-42", none, ["alice", "bob"], none, none⟩ : StoreCall).userIds := by
  have h := disconnecting_behavior stBoth "s2"
    ⟨[Emit.broadcastTo "s2" "doc-42"
        (ServerEvent.roomUserChange [⟨"s1", alice⟩])],
      [⟨"doc-42", none, ["alice", "bob"], none, none⟩], stBoth⟩ (by decide)
  exact ⟨h.1, h.2.2.2 bobSession (by decide)
    ⟨"doc-42", none, ["alice", "bob"], none, none⟩ (by decide)⟩

/-- Counterexample to C4 as stated: when the same user (alice) has two live
connections s1 and s2 in the room, the member-id list passed to the Room
Store on a join contains the user id twice — no deduplication happens. -/
theorem userIds_duplicate_cex :
    (joinRoomHandler snapshotStore stDup "s2" "doc-42").map
        HandlerResult.storeCalls =
      some [⟨"doc-42", none, ["alice", "alice"], none, some "tok2"⟩] ∧
    ¬ (["alice", "alice"] : List String).Nodup := by
  refine ⟨by decide, by decide⟩

/-- C4 (amended): the member-id list computed for the Room Store is the
per-connection list of user ids — exactly one entry per live connection in
the room, in enumeration order, with no deduplication — so a user with
several connections appears several times. -/
theorem userIds_per_connection (st : ServerState) (roomID : String)
    (us : List UserSocket) (ids : List String)
    (hus : getUserSockets st roomID = some us)
    (hids : userIdsOf st roomID = some ids) :
    ids = us.map (fun s => s.user.id) ∧
    ids.length = (fetchSockets st roomID).length := by
  simp only [userIdsOf, hus, Option.some_bind] at hids
  have hmap : ∀ s ∈ us,
      ((st.socketData.lookup s.socketId).map fun data => data.user.id) =
        some s.user.id := by
    intro s hs
    simp only [getUserSockets] at hus
    obtain ⟨x, hx1, hx2⟩ := mem_of_allSome hus hs
    cases hlk : st.socketData.lookup x with
    | none => rw [hlk] at hx2; simp at hx2
    | some d =>
      rw [hlk] at hx2
      simp only [Option.map_some', Option.some.injEq] at hx2
      subst hx2
      rw [hlk]
      rfl
  have hform := allSome_congr_map (g := fun s : UserSocket => s.user.id) hmap
  rw [hform] at hids
  simp only [Option.some.injEq] at hids
  subst hids
  refine ⟨rfl, ?_⟩
  rw [List.length_map]
  simp only [getUserSockets] at hus
  exact allSome_length hus

/-- Witness for C4 (amended): the concrete duplicated enumeration, with one
entry per connection of alice. -/
theorem userIds_per_connection_witness :
    (["alice", "alice"] : List String) =
      ([⟨"s1", alice⟩, ⟨"s2", alice⟩] : List UserSocket).map
        (fun s => s.user.id) ∧
    (["alice", "alice"] : List String).length =
      (fetchSockets stDupBoth "doc-42").length :=
  userIds_per_connection stDupBoth "doc-42"
    [⟨"s1", alice⟩, ⟨"s2", alice⟩] ["alice", "alice"] (by decide) (by decide)
